import Mathlib

/-!
# Verification of the OpenAPI-to-codegen transformation core

A shallow embedding of `openapi_client_generator/transformers/__init__.py`:
the recursive schema resolver, the `allOf` merge strategy, the path-segment
normalizer, the attribute-ordering rule and the endpoint content-type
selection, together with theorems about the properties the specification
states for them.

Python `Mapping`/`PMap` values are embedded as insertion-ordered association
lists, Python exceptions as an explicit error result, and the unbounded
recursion of the resolver as a fuel-indexed function (a return value of
`RErr.fuel` for every fuel amount means the source recurses unboundedly).
External collaborators (the `inflection`, `typeit` and `deepmerge` libraries
and the `openapi_type` data model) are embedded at the granularity they are
used by the transformer, following their published behaviour.
-/

namespace OpenapiClientGen

/-! ## ASCII character helpers (the fragment of Python `str` the code exercises) -/

/-- `c` is an ASCII uppercase letter (Python regex class `[A-Z]`). -/
def isAsciiUpper (c : Char) : Bool := 65 ≤ c.toNat && c.toNat ≤ 90

/-- `c` is an ASCII lowercase letter (Python regex class `[a-z]`). -/
def isAsciiLower (c : Char) : Bool := 97 ≤ c.toNat && c.toNat ≤ 122

/-- `c` is an ASCII digit (Python's `string.digits`, regex class `\d`). -/
def isAsciiDigit (c : Char) : Bool := 48 ≤ c.toNat && c.toNat ≤ 57

/-- Python `str.lower()` restricted to ASCII, as exercised by the code. -/
def pyLowerChar (c : Char) : Char :=
  if isAsciiUpper c then Char.ofNat (c.toNat + 32) else c

/-- Python `str.upper()` restricted to ASCII, as exercised by the code. -/
def pyUpperChar (c : Char) : Char :=
  if isAsciiLower c then Char.ofNat (c.toNat - 32) else c

/-- Python `str.upper()` over a whole string (ASCII fragment). -/
def pyUpper (s : String) : String := String.mk (s.toList.map pyUpperChar)

/-! ## The external `inflection` library, as used by the transformer -/

/-- First substitution pass of `inflection.underscore`: the global regex
substitution `([A-Z]+)([A-Z][a-z]) -> \1_\2`, i.e. an underscore is inserted
before every uppercase letter that is preceded by an uppercase letter and
followed by a lowercase letter. `prev` is the character preceding the head of
the remaining list, if any. -/
def underscorePass1 : Option Char → List Char → List Char
  | _, [] => []
  | prev, c :: rest =>
    let ins : Bool :=
      match prev, rest with
      | some p, c2 :: _ => isAsciiUpper p && isAsciiUpper c && isAsciiLower c2
      | _, _ => false
    if ins then '_' :: c :: underscorePass1 (some c) rest
    else c :: underscorePass1 (some c) rest

/-- Second substitution pass of `inflection.underscore`: the global regex
substitution `([a-z\d])([A-Z]) -> \1_\2`, i.e. an underscore is inserted
between a lowercase letter or digit and an uppercase letter. -/
def underscorePass2 : List Char → List Char
  | [] => []
  | [c] => [c]
  | c1 :: c2 :: rest =>
    if (isAsciiLower c1 || isAsciiDigit c1) && isAsciiUpper c2 then
      c1 :: '_' :: underscorePass2 (c2 :: rest)
    else
      c1 :: underscorePass2 (c2 :: rest)

/-- Third step of `inflection.underscore`: `word.replace("-", "_")`. -/
def dashToUnderscore (c : Char) : Char := if c = '-' then '_' else c

/-- The external `inflection.underscore`: the two regex passes, dash
replacement, then `str.lower()`. -/
def underscore (s : String) : String :=
  String.mk (((underscorePass2 (underscorePass1 none s.toList)).map dashToUnderscore).map pyLowerChar)

/-- Tail of the external `inflection.camelize` (uppercase-first variant): the
global substitution `(?:^|_)(.) -> upper(\1)` applied from the second
character on — each underscore followed by a character is replaced by that
character uppercased. -/
def camelizeTail : List Char → List Char
  | [] => []
  | '_' :: c :: rest => pyUpperChar c :: camelizeTail rest
  | c :: rest => c :: camelizeTail rest

/-- The external `inflection.camelize` with `uppercase_first_letter=True`:
the first character is uppercased, and every `_c` pair becomes `upper(c)`. -/
def camelize (s : String) : String :=
  match s.toList with
  | [] => ""
  | c :: rest => String.mk (pyUpperChar c :: camelizeTail rest)

/-- Models the external `inflection.singularize`. The library applies an
ordered rule table of suffix rewrites; the rules exercised by this
repository's specifications reduce to the plural-`s` family embedded here.
No theorem in this development depends on its output values. -/
def singularize (s : String) : String :=
  if s.endsWith "ies" then String.mk (s.toList.dropLast.dropLast.dropLast) ++ "y"
  else if s.endsWith "ss" then s
  else if s.endsWith "s" then String.mk s.toList.dropLast
  else s

/-! ## The external `typeit.utils.normalize_name` -/

/-- The Python keyword list consulted by `typeit.utils.normalize_name`. -/
def pyKeywords : List String :=
  ["False", "None", "True", "and", "as", "assert", "async", "await", "break",
   "class", "continue", "def", "del", "elif", "else", "except", "finally",
   "for", "from", "global", "if", "in", "is", "lambda", "nonlocal",
   "not", "or", "pass", "raise", "return", "try", "while", "with", "yield"]

/-- Python `str.isidentifier()` restricted to ASCII names. -/
def pyIsIdentifier (s : String) : Bool :=
  match s.toList with
  | [] => false
  | c :: rest =>
    (isAsciiLower c || isAsciiUpper c || c = '_') &&
      rest.all (fun d => isAsciiLower d || isAsciiUpper d || isAsciiDigit d || d = '_')

/-- Models the external `typeit.utils.normalize_name`, which escapes names
unusable as `NamedTuple` attribute names (Python keywords and invalid
identifiers); on valid non-keyword identifiers it is the identity. The
claims exercise it only on valid identifiers. -/
def normalize_name (name : String) : String :=
  if pyKeywords.contains name || !pyIsIdentifier name then "overridden_" ++ name else name

/-! ## Path segmentation (`pythonize_path_segment`, `camelized_python_name`) -/

/-- `EndpointSegment` of `transformers/__init__.py`. -/
structure EndpointSegment where
  original : String
  segment : String
  placeholder : Option String := none
deriving Repr, DecidableEq

/-- The `remove` character set of `pythonize_path_segment`: `{'.', ','} | {'{', '}'}`. -/
def removableChars : List Char := ['\x7b', '\x7d', '.', ',']

/-- The `placeholder` character set of `pythonize_path_segment`: `{'{', '}'}`. -/
def placeholderChars : List Char := ['\x7b', '\x7d']

/-- `pythonize_path_segment` (transformers/__init__.py lines 643–669).
Returns `none` exactly where the source raises `IndexError`: a
non-placeholder segment whose cleaned, underscored text is empty (`rv[0]`
on an empty string). -/
def pythonize_path_segment (seg : String) : Option EndpointSegment :=
  let is_placeholder := seg.toList.any (fun c => placeholderChars.contains c)
  let final := seg.toList.filter (fun c => !(removableChars.contains c))
  let final_underscored := underscore (String.mk final)
  if is_placeholder then
    some { original := seg
         , segment := "by_" ++ final_underscored
         , placeholder := some ("\x7b" ++ final_underscored ++ "\x7d") }
  else
    match final_underscored.toList with
    | [] => none
    | c :: _ =>
      some { original := seg
           , segment := if isAsciiDigit c then "v" ++ final_underscored else final_underscored
           , placeholder := none }

/-- `camelized_python_name` (transformers/__init__.py lines 259–264);
`none` where `pythonize_path_segment` raises. -/
def camelized_python_name (irregular_source : String) : Option String :=
  (pythonize_path_segment irregular_source).map (fun es => camelize es.segment)

/-! ## The schema data model (the `openapi_type` shapes read by the transformer) -/

/-- `openapi_type.custom_types.RefTo`: the namespace a `$ref` points into. -/
inductive RefTo where
  | schemas
  | parameters
  | responses
deriving Repr, DecidableEq

/-- The closed sum of schema shapes dispatched over by
`recursive_resolve_schema`, with exactly the fields the transformer reads.
Python `Mapping`s are insertion-ordered association lists and the `required`
frozenset is a list observed only through membership. The `float` default is
carried as its already-rendered literal (`str(float)` formatting is outside
the claims). -/
inductive SchemaType where
  | stringValue (enum : List String) (default : Option String)
  | integerValue (default : Option Int)
  | floatValue (defaultRepr : Option String)
  | booleanValue (default : Option Bool)
  | objectValue (properties : List (String × SchemaType)) (required : List String)
      (description : String)
  | reference (location : RefTo) (name : String)
  | arrayValue (items : SchemaType)
  | objectWithAdditionalProperties (additional_properties : Option (Sum Bool SchemaType))
  | productSchema (all_of : List SchemaType)
  | unionAny (any_of : List SchemaType)
  | unionOne (one_of : List SchemaType)
  | emptyValue
  | inlinedObject (properties : List (String × SchemaType)) (required : List String)
      (description : String)
deriving Repr

/-! ## The output IR (`TypeAttr`, `TypeContext`, `Parsed`) -/

/-- `TypeAttr` of `transformers/__init__.py`. -/
structure TypeAttr where
  name : String
  datatype : String
  is_required : Bool
  default : Option String
  docstring : String := ""
deriving Repr, DecidableEq

/-- `TypeContext` of `transformers/__init__.py` (a resolved type definition).
The `overrides` `PMap` is an association list. -/
structure TypeContext where
  name : String
  docstring : String := ""
  attrs : List TypeAttr := []
  is_enum : Bool := false
  common_reference_as : Option String := none
  overrides : List (String × String) := []
deriving Repr, DecidableEq

/-- `Parsed` of `transformers/__init__.py`: the result triple of
`recursive_resolve_schema`. -/
structure Parsed where
  actual_type_name : String
  default_value : Option String := none
  final_types : List TypeContext := []
deriving Repr, DecidableEq

/-! ## Python exceptions and the result monad -/

/-- The Python exceptions the transformer can raise, plus `fuel`, the marker
that a computation exceeded the allotted recursion depth at every finite
depth (Python recurses unboundedly there). -/
inductive RErr where
  | fuel
  | keyError (key : String)
  | notImplemented (msg : String)
  | indexError
  | typeError (msg : String)
deriving Repr, DecidableEq

/-- Result of a fallible transformer computation. -/
inductive Res (α : Type) where
  | ok (value : α)
  | error (e : RErr)
deriving Repr, DecidableEq

instance : Monad Res where
  pure := Res.ok
  bind := fun x f =>
    match x with
    | .ok a => f a
    | .error e => .error e

/-- Map over a successful result. -/
def Res.map {α β : Type} (f : α → β) : Res α → Res β
  | .ok a => .ok (f a)
  | .error e => .error e

theorem Res.bind_ok {α β : Type} (a : α) (f : α → Res β) : (Res.ok a >>= f) = f a := rfl

theorem Res.bind_error {α β : Type} (e : RErr) (f : α → Res β) :
    ((Res.error e : Res α) >>= f) = Res.error e := rfl

theorem Res.pure_def {α : Type} (a : α) : (pure a : Res α) = Res.ok a := rfl

/-- `camelized_python_name` inside a transformer computation: the
`IndexError` of `pythonize_path_segment` propagates. -/
def camelized_python_name_r (s : String) : Res String :=
  match camelized_python_name s with
  | some n => Res.ok n
  | none => Res.error RErr.indexError

/-! ## Registries -/

/-- The spec-local normalized schema registry (a `PMap`), observed only
through key lookup. -/
abbrev Registry := List (String × SchemaType)

/-- `ResolvedTypesMap`: the common (shared) types registry. -/
abbrev ResolvedTypesMap := List (String × TypeContext)

/-- `PMap.set`: insert or replace a binding. -/
def pmSet {α : Type} (m : List (String × α)) (k : String) (v : α) : List (String × α) :=
  if (m.lookup k).isSome then m.map (fun p => if p.1 = k then (k, v) else p) else m ++ [(k, v)]

abbrev AttrNormalizer := String → String

abbrev ResolverFn := Registry → String → SchemaType → AttrNormalizer → ResolvedTypesMap → Res Parsed

/-! ## The per-shape resolver branches (`_process_*`) -/

/-- `EMPTY_NAME`: the reserved sentinel identifier for an empty-string enum
literal. -/
def EMPTY_NAME : String := "EMPTY"

/-- `NON_PYTHONIC_SYMBOLS.sub('_', x)`: replace `/` and `:` with `_`. -/
def nonPythonicSub (s : String) : String :=
  String.mk (s.toList.map (fun c => if c = '/' || c = ':' then '_' else c))

/-- The enum member identifier derived in `_process_string_or_enum` (line
599): `underscore(NON_PYTHONIC_SYMBOLS.sub('_', x)).upper() if x else
EMPTY_NAME`. -/
def enum_member_name (x : String) : String :=
  if x ≠ "" then pyUpper (underscore (nonPythonicSub x)) else EMPTY_NAME

/-- `_process_string_or_enum` (lines 587–629). -/
def _process_string_or_enum (_attr_name_normalizer : AttrNormalizer)
    (_common_types : ResolvedTypesMap) (final_types : List TypeContext)
    (_registry : Registry) (enum : List String) (default : Option String)
    (suggested_type_name : String) : Res Parsed :=
  if enum ≠ [] then do
    let actual_type_name ← camelized_python_name_r suggested_type_name
    let enum_options : List TypeAttr := enum.map (fun x =>
      { name := enum_member_name x
      , datatype := "str"
      , is_required := true
      , default := some ("\x27" ++ x ++ "\x27") })
    let final_types := final_types ++
      [{ name := actual_type_name, docstring := "", attrs := enum_options, is_enum := true }]
    let default_value := default.map (fun d => actual_type_name ++ "(\x27" ++ d ++ "\x27)")
    Res.ok { actual_type_name := actual_type_name
           , final_types := final_types
           , default_value := default_value }
  else
    Res.ok { actual_type_name := "str"
           , final_types := final_types
           , default_value := default.map (fun d => "\x27" ++ d ++ "\x27") }

/-- `_process_integer` (lines 572–584). -/
def _process_integer (_attr_name_normalizer : AttrNormalizer)
    (_common_types : ResolvedTypesMap) (_final_types : List TypeContext)
    (_registry : Registry) (default : Option Int) (_suggested_type_name : String) : Res Parsed :=
  Res.ok { actual_type_name := "int"
         , default_value := default.map (fun n => toString n)
         , final_types := [] }

/-- `_process_float` (lines 557–569); the default literal is carried as
rendered. -/
def _process_float (_attr_name_normalizer : AttrNormalizer)
    (_common_types : ResolvedTypesMap) (_final_types : List TypeContext)
    (_registry : Registry) (defaultRepr : Option String) (_suggested_type_name : String) : Res Parsed :=
  Res.ok { actual_type_name := "float"
         , default_value := defaultRepr
         , final_types := [] }

/-- `_process_bool` (lines 542–554): `str(True) = "True"`. -/
def _process_bool (_attr_name_normalizer : AttrNormalizer)
    (_common_types : ResolvedTypesMap) (_final_types : List TypeContext)
    (_registry : Registry) (default : Option Bool) (_suggested_type_name : String) : Res Parsed :=
  Res.ok { actual_type_name := "bool"
         , default_value := default.map (fun b => if b then "True" else "False")
         , final_types := [] }

/-- `_process_empty_value` (lines 337–349). -/
def _process_empty_value (_attr_name_normalizer : AttrNormalizer)
    (_common_types : ResolvedTypesMap) (_final_types : List TypeContext)
    (_registry : Registry) (_suggested_type_name : String) : Res Parsed :=
  Res.ok { actual_type_name := "Any", default_value := some "None", final_types := [] }

/-- The property loop of `_process_object` (lines 510–527): resolve each
declared property in order, accumulating child definitions and the
attribute list. -/
def _process_object_loop (recurse : ResolverFn) (attr_name_normalizer : AttrNormalizer)
    (common_types : ResolvedTypesMap) (registry : Registry) (required : List String)
    (suggested_type_name : String) (final_types : List TypeContext) (attrs : List TypeAttr) :
    List (String × SchemaType) → Res (List TypeContext × List TypeAttr)
  | [] => Res.ok (final_types, attrs)
  | (attr_name, attr_schema_type) :: rest => do
    let attr_type_suggested_name ← camelized_python_name_r (suggested_type_name ++ "_" ++ attr_name)
    let parsed ← recurse registry attr_type_suggested_name attr_schema_type attr_name_normalizer common_types
    _process_object_loop recurse attr_name_normalizer common_types registry required
      suggested_type_name
      (final_types ++ parsed.final_types)
      (attrs ++ [{ name := normalize_name (attr_name_normalizer attr_name)
                 , datatype := parsed.actual_type_name
                 , is_required := required.contains attr_name
                 , default := parsed.default_value }])
      rest

/-- `_process_object` (lines 502–539): children first, then exactly one
`TypeContext` for the object itself. -/
def _process_object (recurse : ResolverFn) (attr_name_normalizer : AttrNormalizer)
    (common_types : ResolvedTypesMap) (final_types : List TypeContext)
    (registry : Registry) (properties : List (String × SchemaType)) (required : List String)
    (suggested_type_name : String) : Res Parsed := do
  let (final_types, attrs) ← _process_object_loop recurse attr_name_normalizer common_types
    registry required suggested_type_name final_types [] properties
  let tname ← camelized_python_name_r suggested_type_name
  Res.ok { actual_type_name := tname
         , default_value := none
         , final_types := final_types ++ [{ name := tname, docstring := "", attrs := attrs }] }

/-- `_process_reference` (lines 460–499): only the `schemas` namespace is
supported; a hit in `common_types` is reused with no new definitions, a miss
re-resolves the target found in `registry` (a missing key is the Python
`KeyError` of `registry[reference_key]`). -/
def _process_reference (recurse : ResolverFn) (attr_name_normalizer : AttrNormalizer)
    (common_types : ResolvedTypesMap) (final_types : List TypeContext)
    (registry : Registry) (location : RefTo) (ref_name : String)
    (_suggested_type_name : String) : Res Parsed :=
  if location ≠ RefTo.schemas then
    Res.error (RErr.notImplemented "This reference location is not supported yet")
  else do
    let reference_key ← camelized_python_name_r ref_name
    match common_types.lookup reference_key with
    | some typ => do
      let actual_type_name ← camelized_python_name_r typ.name
      Res.ok { actual_type_name := actual_type_name
             , default_value := none
             , final_types := final_types }
    | none =>
      match registry.lookup reference_key with
      | none => Res.error (RErr.keyError reference_key)
      | some to_resolve => do
        let parsed ← recurse registry ref_name to_resolve attr_name_normalizer common_types
        Res.ok { actual_type_name := parsed.actual_type_name
               , default_value := parsed.default_value
               , final_types := final_types ++ parsed.final_types }

/-- `_process_array` (lines 433–457). -/
def _process_array (recurse : ResolverFn) (attr_name_normalizer : AttrNormalizer)
    (common_types : ResolvedTypesMap) (final_types : List TypeContext)
    (registry : Registry) (items : SchemaType) (suggested_type_name : String) : Res Parsed := do
  let name := singularize suggested_type_name
  let parsed ← recurse registry name items attr_name_normalizer common_types
  Res.ok { actual_type_name := "Sequence[" ++ parsed.actual_type_name ++ "]"
         , default_value := none
         , final_types := final_types ++ parsed.final_types }

/-- `_process_freeform_object` (lines 407–430). -/
def _process_freeform_object (recurse : ResolverFn) (attr_name_normalizer : AttrNormalizer)
    (common_types : ResolvedTypesMap) (final_types : List TypeContext)
    (registry : Registry) (additional_properties : Option (Sum Bool SchemaType))
    (suggested_type_name : String) : Res Parsed :=
  match additional_properties with
  | none =>
    Res.ok { actual_type_name := "Mapping[Any, Any]", default_value := none, final_types := final_types }
  | some (Sum.inl true) =>
    Res.ok { actual_type_name := "Mapping[Any, Any]", default_value := none, final_types := final_types }
  | some (Sum.inl false) =>
    Res.error (RErr.notImplemented "Not sure what to do with additionalProperties false")
  | some (Sum.inr schema) =>
    recurse registry suggested_type_name schema attr_name_normalizer common_types

/-- The variant loop of `_process_unions` (lines 364–376). -/
def _process_unions_loop (recurse : ResolverFn) (attr_name_normalizer : AttrNormalizer)
    (common_types : ResolvedTypesMap) (registry : Registry) (suggested_type_name : String)
    (options : List String) (final_types : List TypeContext) :
    List SchemaType → Res (List String × List TypeContext)
  | [] => Res.ok (options, final_types)
  | schema_ :: rest => do
    let base ← camelized_python_name_r suggested_type_name
    let variant_name := camelize (base ++ "_var" ++ toString (options.length + 1))
    let parsed ← recurse registry variant_name schema_ attr_name_normalizer common_types
    _process_unions_loop recurse attr_name_normalizer common_types registry suggested_type_name
      (options ++ [parsed.actual_type_name]) (final_types ++ parsed.final_types) rest

/-- `_process_unions` (lines 352–381), covering both `anyOf` and `oneOf`
item lists. -/
def _process_unions (recurse : ResolverFn) (attr_name_normalizer : AttrNormalizer)
    (common_types : ResolvedTypesMap) (final_types : List TypeContext)
    (registry : Registry) (items : List SchemaType) (suggested_type_name : String) : Res Parsed := do
  let (options, final_types) ← _process_unions_loop recurse attr_name_normalizer common_types
    registry suggested_type_name [] final_types items
  Res.ok { actual_type_name := "Union[" ++ String.intercalate ", " options ++ "]"
         , default_value := none
         , final_types := final_types }

/-! ## The `allOf` merge (`find_reference`, `merge_strategy`) -/

/-- `find_reference` (lines 917–923): look the reference up in the registry
(`NotImplementedError` when absent) and assert the target is an object
schema (`AssertionError`, embedded as a type error). -/
def find_reference (ref_name : String) (components : Registry) : Res SchemaType := do
  let key ← camelized_python_name_r ref_name
  match components.lookup key with
  | none => Res.error (RErr.notImplemented "Reference is not found in the registry")
  | some obj =>
    match obj with
    | SchemaType.objectValue _ _ _ => Res.ok obj
    | _ => Res.error (RErr.typeError "Referenced object is not of type ObjectValue")

/-- The `_asdict()` record of an object-like schema member of an `allOf`
list: `type` (present only on `ObjectValue`), `properties`, `required`,
`description`. A member of any other shape makes the final
`ObjectValue(**red)` call fail with a `TypeError` on mismatched keyword
arguments. -/
structure ObjectParts where
  type_key : Option String
  properties : List (String × SchemaType)
  required : List String
  description : String

/-- `_asdict()` of one `allOf` member, restricted to the object-like shapes
that can flow into `ObjectValue(**red)`. -/
def schema_asdict_parts : SchemaType → Res ObjectParts
  | SchemaType.objectValue props req desc => Res.ok ⟨some "object", props, req, desc⟩
  | SchemaType.inlinedObject props req desc => Res.ok ⟨none, props, req, desc⟩
  | _ => Res.error (RErr.typeError "ObjectValue keyword arguments mismatch")

/-- The `deepmerge` dict strategy on a `properties` mapping: keys of `base`
keep their order (values overridden by `nxt` on conflict — the values are
schema nodes, so the scalar fallback applies), new keys of `nxt` are
appended in declaration order. -/
def pyDictMerge (base nxt : List (String × SchemaType)) : List (String × SchemaType) :=
  base.map (fun p => match nxt.lookup p.1 with | some v => (p.1, v) | none => p)
    ++ nxt.filter (fun q => (base.lookup q.1).isNone)

/-- The `add_to_set` strategy (lines 913–914) on the `required` frozenset:
set union (membership is all the transformer observes). -/
def frozensetUnion (base nxt : List String) : List String :=
  base ++ nxt.filter (fun x => !(base.contains x))

/-- One merge step of the `merge_strategy` `deepmerge.Merger` (lines
926–934) on two object `_asdict()` records: dict-valued entries merge key
by key, frozenset-valued entries union, every other (scalar) entry is
overridden by the right operand; a key missing on one side is taken from
the other. -/
def merge_strategy_merge (base nxt : ObjectParts) : ObjectParts :=
  { type_key := match nxt.type_key with | some t => some t | none => base.type_key
  , properties := pyDictMerge base.properties nxt.properties
  , required := frozensetUnion base.required nxt.required
  , description := nxt.description }

/-- The merge pipeline of `_process_product_schema_type` (lines 392–397):
dereference bare references against the registry, fold the members'
`_asdict()` records through the merge strategy starting from the empty
dict, and rebuild an `ObjectValue` (a missing `type` key — e.g. an empty
`allOf` — is the `TypeError` of `ObjectValue(**red)`). -/
def product_merge (registry : Registry) (all_of : List SchemaType) : Res SchemaType := do
  let parts ← all_of.mapM (fun x =>
    match x with
    | SchemaType.reference _ n => do
      let obj ← find_reference n registry
      schema_asdict_parts obj
    | other => schema_asdict_parts other)
  let red := parts.foldl
    (fun acc p => match acc with | none => some p | some b => some (merge_strategy_merge b p)) none
  match red with
  | none => Res.error (RErr.typeError "ObjectValue keyword arguments mismatch")
  | some r =>
    match r.type_key with
    | none => Res.error (RErr.typeError "ObjectValue keyword arguments mismatch")
    | some _ => Res.ok (SchemaType.objectValue r.properties r.required r.description)

/-- `_process_product_schema_type` (lines 384–404). -/
def _process_product_schema_type (recurse : ResolverFn) (attr_name_normalizer : AttrNormalizer)
    (common_types : ResolvedTypesMap) (_final_types : List TypeContext)
    (registry : Registry) (all_of : List SchemaType) (suggested_type_name : String) : Res Parsed := do
  let schema_ ← product_merge registry all_of
  recurse registry suggested_type_name schema_ attr_name_normalizer common_types

/-- `_process_inlined_object_value` (lines 314–334): renormalize into an
`ObjectValue` and re-resolve. -/
def _process_inlined_object_value (recurse : ResolverFn) (attr_name_normalizer : AttrNormalizer)
    (common_types : ResolvedTypesMap) (_final_types : List TypeContext)
    (registry : Registry) (properties : List (String × SchemaType)) (required : List String)
    (description : String) (suggested_type_name : String) : Res Parsed :=
  recurse registry suggested_type_name (SchemaType.objectValue properties required description)
    attr_name_normalizer common_types

/-! ## `recursive_resolve_schema` -/

/-- `recursive_resolve_schema` (lines 267–311), indexed by recursion fuel:
`RErr.fuel` at every fuel amount means the Python original recurses
unboundedly. The branch order mirrors the `isinstance` dispatch chain. -/
def recursive_resolve_schema (fuel : Nat) : ResolverFn :=
  match fuel with
  | 0 => fun _ _ _ _ _ => Res.error RErr.fuel
  | n + 1 => fun registry suggested_type_name schema attr_name_normalizer common_types =>
    let final_types : List TypeContext := []
    let recurse := recursive_resolve_schema n
    match schema with
    | SchemaType.stringValue enum default =>
      _process_string_or_enum attr_name_normalizer common_types final_types registry
        enum default suggested_type_name
    | SchemaType.integerValue default =>
      _process_integer attr_name_normalizer common_types final_types registry
        default suggested_type_name
    | SchemaType.floatValue defaultRepr =>
      _process_float attr_name_normalizer common_types final_types registry
        defaultRepr suggested_type_name
    | SchemaType.booleanValue default =>
      _process_bool attr_name_normalizer common_types final_types registry
        default suggested_type_name
    | SchemaType.objectValue properties required _description =>
      _process_object recurse attr_name_normalizer common_types final_types registry
        properties required suggested_type_name
    | SchemaType.reference location name =>
      _process_reference recurse attr_name_normalizer common_types final_types registry
        location name suggested_type_name
    | SchemaType.arrayValue items =>
      _process_array recurse attr_name_normalizer common_types final_types registry
        items suggested_type_name
    | SchemaType.objectWithAdditionalProperties additional_properties =>
      _process_freeform_object recurse attr_name_normalizer common_types final_types registry
        additional_properties suggested_type_name
    | SchemaType.productSchema all_of =>
      _process_product_schema_type recurse attr_name_normalizer common_types final_types registry
        all_of suggested_type_name
    | SchemaType.unionAny any_of =>
      _process_unions recurse attr_name_normalizer common_types final_types registry
        any_of suggested_type_name
    | SchemaType.unionOne one_of =>
      _process_unions recurse attr_name_normalizer common_types final_types registry
        one_of suggested_type_name
    | SchemaType.emptyValue =>
      _process_empty_value attr_name_normalizer common_types final_types registry
        suggested_type_name
    | SchemaType.inlinedObject properties required description =>
      _process_inlined_object_value recurse attr_name_normalizer common_types final_types registry
        properties required description suggested_type_name

/-! ## `resolve_schemas` (the top-level component pass) -/

/-- `resolve_schemas` (lines 214–242): normalize the registry keys, resolve
every named component schema in declaration order, and thread the growing
common-types map — updated only after each top-level schema completes. -/
def resolve_schemas (fuel : Nat) (schemas : List (String × SchemaType))
    (common_schema_types : ResolvedTypesMap) : Res (List TypeContext) := do
  let normalized_registry ← schemas.foldlM (fun m kv => do
    let k ← camelized_python_name_r kv.1
    Res.ok (pmSet m k kv.2)) ([] : Registry)
  let step := fun (acc : List TypeContext × ResolvedTypesMap) (kv : String × SchemaType) => do
    let (resolved_types, common_types) := acc
    let parsed ← recursive_resolve_schema fuel normalized_registry kv.1 kv.2 underscore common_types
    let k ← camelized_python_name_r kv.1
    match parsed.final_types.getLast? with
    | some resolved_common_type =>
      Res.ok (resolved_types ++ parsed.final_types, pmSet common_types k resolved_common_type)
    | none =>
      let typ : TypeContext :=
        { name := k, attrs := [], common_reference_as := some parsed.actual_type_name }
      Res.ok (resolved_types ++ [typ], pmSet common_types k typ)
  let (resolved_types, _) ← schemas.foldlM step (([] : List TypeContext), common_schema_types)
  Res.ok resolved_types

/-! ## `TypeContext.ordered_attrs` -/

/-- Python string comparison (`<=` by code point), on character lists. -/
def strLeL : List Char → List Char → Bool
  | [], _ => true
  | _ :: _, [] => false
  | c :: cs, d :: ds =>
    if c.toNat < d.toNat then true
    else if d.toNat < c.toNat then false
    else strLeL cs ds

/-- Python string comparison (`<=` lexicographically by code point). -/
def strLe (a b : String) : Bool := strLeL a.toList b.toList

/-- Python `bool` comparison: `False < True`. -/
def pyBoolLtB (a b : Bool) : Bool := !a && b

/-- Python tuple comparison on the sort key `(x.is_required, x.name)` of
`TypeContext.ordered_attrs`. -/
def attrKeyLe (a b : TypeAttr) : Bool :=
  if a.is_required = b.is_required then strLe a.name b.name
  else pyBoolLtB a.is_required b.is_required

/-- The comparison realised by `sorted(..., reverse=True)`: `a` precedes `b`
when the key of `b` is at most the key of `a` (a stable descending sort). -/
def attrSortLe (a b : TypeAttr) : Bool := attrKeyLe b a

/-- `TypeContext.ordered_attrs` (lines 96–98):
`sorted(self.attrs, key=lambda x: (x.is_required, x.name), reverse=True)`,
embedded as a stable merge sort under the reversed key comparison —
extensionally Python's stable `sorted` with `reverse=True`. -/
def ordered_attrs (t : TypeContext) : List TypeAttr := t.attrs.mergeSort attrSortLe

/-! ## Endpoint content selection -/

/-- The `openapi_type.ContentTypeFormat` enumeration, as consulted by the
transformer (unlisted media types fall under `other`). -/
inductive ContentTypeFormat where
  | json
  | anything
  | form_urlencoded
  | event_stream
  | binary_stream
  | text
  | binary
  | other (mime : String)
deriving Repr, DecidableEq

/-- The fragment of `openapi_type.ContentType` the transformer reads. -/
structure ContentType where
  format : ContentTypeFormat
deriving Repr, DecidableEq

/-- The fragment of an `openapi_type` media-type entry the transformer
reads (`meta.schema`). -/
structure MediaType where
  schema : Option SchemaType
deriving Repr

/-- The fragment of `openapi_type.Response` the transformer reads: the
declared content entries in declaration order. -/
structure Response where
  content : List (ContentType × MediaType)
deriving Repr

/-- The request-body break condition of `iter_supported_methods` (lines
731–733): the entry's format is JSON, ANYTHING or FORM_URLENCODED. -/
def request_preferred (p : ContentType × MediaType) : Bool :=
  [ContentTypeFormat.json, ContentTypeFormat.anything,
   ContentTypeFormat.form_urlencoded].contains p.1.format

/-- The request-body content selection of `iter_supported_methods` (lines
729–737): the `for ... break / else` loop takes the first declared entry
satisfying the break condition, and otherwise the last declared entry
(`list(content.items())[-1]`); `none` models the `IndexError` on an empty
content map. -/
def select_request_content (content : List (ContentType × MediaType)) :
    Option (ContentType × MediaType) :=
  match content.find? request_preferred with
  | some p => some p
  | none => content.getLast?

/-- The response break condition of `_process_response_type` (lines
818–822): JSON, ANYTHING, FORM_URLENCODED or EVENT_STREAM. -/
def response_preferred (p : ContentType × MediaType) : Bool :=
  [ContentTypeFormat.json, ContentTypeFormat.anything,
   ContentTypeFormat.form_urlencoded, ContentTypeFormat.event_stream].contains p.1.format

/-- `DEFAULT_RESPONSE_TYPE` (line 119). -/
def DEFAULT_RESPONSE_TYPE : TypeContext := { name := "Response" }

/-- `_process_response_type` (lines 806–851). The streaming flag is
recomputed only on the break path (`content_type.format in (EVENT_STREAM,
BINARY_STREAM)` at line 824); the fallback path keeps the incoming value. -/
def _process_response_type (fuel : Nat) (common_types : ResolvedTypesMap)
    (required_response_name : String) (response : Response)
    (response_is_stream : Bool) : Res (Bool × List TypeContext) :=
  if response.content.isEmpty then
    Res.ok (response_is_stream,
      [{ DEFAULT_RESPONSE_TYPE with
           name := "None", common_reference_as := some required_response_name }])
  else do
    let (response_schema, response_is_stream) ←
      match response.content.find? response_preferred with
      | some p =>
        Res.ok (p.2.schema,
          [ContentTypeFormat.event_stream, ContentTypeFormat.binary_stream].contains p.1.format)
      | none =>
        match response.content.getLast? with
        | some last_response => Res.ok (last_response.2.schema, response_is_stream)
        | none => Res.error RErr.indexError
    match response_schema with
    | none =>
      Res.ok (response_is_stream,
        [{ DEFAULT_RESPONSE_TYPE with
             name := "Any", common_reference_as := some required_response_name }])
    | some rs => do
      let parsed ← recursive_resolve_schema fuel [] required_response_name rs underscore common_types
      let response_types :=
        if parsed.actual_type_name ≠ required_response_name then
          parsed.final_types ++
            [{ DEFAULT_RESPONSE_TYPE with
                 name := parsed.actual_type_name, attrs := [],
                 common_reference_as := some required_response_name }]
        else parsed.final_types
      Res.ok (response_is_stream, response_types)

/-! ## Comparison lemmas for the attribute sort -/

theorem strLeL_total : ∀ a b : List Char, (strLeL a b || strLeL b a) = true
  | [], b => by simp [strLeL]
  | a :: as_, [] => by simp [strLeL]
  | c :: cs, d :: ds => by
    by_cases h1 : c.toNat < d.toNat
    · simp [strLeL, h1]
    · by_cases h2 : d.toNat < c.toNat
      · simp [strLeL, h1, h2]
      · simp [strLeL, h1, h2]
        simpa using strLeL_total cs ds

theorem strLeL_trans : ∀ a b c : List Char, strLeL a b = true → strLeL b c = true → strLeL a c = true
  | [], _, _, _, _ => by simp [strLeL]
  | x :: xs, [], _, h1, _ => by simp [strLeL] at h1
  | x :: xs, y :: ys, [], _, h2 => by simp [strLeL] at h2
  | x :: xs, y :: ys, z :: zs, h1, h2 => by
    simp only [strLeL] at h1 h2 ⊢
    by_cases hxy : x.toNat < y.toNat
    · by_cases hyz : y.toNat < z.toNat
      · have hxz : x.toNat < z.toNat := Nat.lt_trans hxy hyz
        simp [hxz]
      · by_cases hzy : z.toNat < y.toNat
        · simp [hyz, hzy] at h2
        · have hxz : x.toNat < z.toNat := by omega
          simp [hxz]
    · by_cases hyx : y.toNat < x.toNat
      · simp [hxy, hyx] at h1
      · by_cases hyz : y.toNat < z.toNat
        · have hxz : x.toNat < z.toNat := by omega
          simp [hxz]
        · by_cases hzy : z.toNat < y.toNat
          · simp [hyz, hzy] at h2
          · have hxz : ¬ x.toNat < z.toNat := by omega
            have hzx : ¬ z.toNat < x.toNat := by omega
            simp [hxy, hyx] at h1
            simp [hyz, hzy] at h2
            simp [hxz, hzx]
            exact strLeL_trans xs ys zs h1 h2

theorem strLe_total (a b : String) : (strLe a b || strLe b a) = true :=
  strLeL_total a.toList b.toList

theorem strLe_trans (a b c : String) (h1 : strLe a b = true) (h2 : strLe b c = true) :
    strLe a c = true := strLeL_trans a.toList b.toList c.toList h1 h2

theorem attrKeyLe_trans (a b c : TypeAttr) (h1 : attrKeyLe a b = true) (h2 : attrKeyLe b c = true) :
    attrKeyLe a c = true := by
  unfold attrKeyLe pyBoolLtB at *
  cases hA : a.is_required <;> cases hB : b.is_required <;> cases hC : c.is_required <;>
    simp_all <;> exact strLe_trans _ _ _ h1 h2

theorem attrKeyLe_total (a b : TypeAttr) : (attrKeyLe a b || attrKeyLe b a) = true := by
  unfold attrKeyLe pyBoolLtB
  cases hA : a.is_required <;> cases hB : b.is_required <;> simp_all <;>
    simpa using strLe_total a.name b.name

theorem attrSortLe_trans (a b c : TypeAttr) (h1 : attrSortLe a b = true) (h2 : attrSortLe b c = true) :
    attrSortLe a c = true := attrKeyLe_trans c b a h2 h1

theorem attrSortLe_total (a b : TypeAttr) : (attrSortLe a b || attrSortLe b a) = true := by
  simpa [attrSortLe, Bool.or_comm] using attrKeyLe_total b a

/-! ## Claim C1 -/

/-- C1 (amended): `TypeContext.ordered_attrs` is a permutation of the
attribute list in which every attribute with `required = true` precedes
every attribute with `required = false`, and attributes with equal
`required` flags appear in descending (not ascending) lexicographic order
of their names. -/
theorem ordered_attrs_required_first_names_descending (t : TypeContext) :
    (ordered_attrs t).Perm t.attrs ∧
    (ordered_attrs t).Pairwise (fun a b =>
      (b.is_required = true → a.is_required = true) ∧
      (a.is_required = b.is_required → strLe b.name a.name = true)) := by
  refine ⟨List.mergeSort_perm t.attrs attrSortLe, ?_⟩
  have hs := @List.sorted_mergeSort TypeAttr attrSortLe
    (fun a b c => attrSortLe_trans a b c)
    (fun a b => attrSortLe_total a b) t.attrs
  apply hs.imp
  intro a b h
  unfold attrSortLe attrKeyLe pyBoolLtB at h
  constructor
  · intro hb
    cases ha : a.is_required
    · rw [hb, ha] at h
      simp at h
    · rfl
  · intro he
    simp [he] at h
    exact h

/-- Two required attributes named `a` and `b` on one type. -/
def c1_attr_a : TypeAttr := { name := "a", datatype := "str", is_required := true, default := none }

def c1_attr_b : TypeAttr := { name := "b", datatype := "str", is_required := true, default := none }

def c1_ctx : TypeContext := { name := "T", attrs := [c1_attr_a, c1_attr_b] }

/-- C1 (counterexample): on a type with two required attributes named `a`
and `b`, `ordered_attrs` yields the names in the order `[b, a]`, not the
ascending order `[a, b]` the claim states. -/
theorem ordered_attrs_ascending_counterexample :
    (ordered_attrs c1_ctx).map TypeAttr.name = ["b", "a"] ∧
    ¬ (ordered_attrs c1_ctx).map TypeAttr.name = ["a", "b"] := by
  have h : ordered_attrs c1_ctx = [c1_attr_b, c1_attr_a] := by
    simp [ordered_attrs, c1_ctx, c1_attr_a, c1_attr_b, List.mergeSort, List.merge,
      attrSortLe, attrKeyLe, strLe, strLeL, pyBoolLtB]
  rw [h]
  constructor
  · rfl
  · decide

/-! ## Claim C9 -/

/-- A components section with a self-referential schema:
`A = {"$ref": "#/components/schemas/A"}`. -/
def cycle_registry : Registry := [("A", SchemaType.reference RefTo.schemas "A")]

/-- C9: on a cyclic reference chain (`A → A`), `recursive_resolve_schema`
never produces a result or a reported error at any recursion depth — it
exhausts every finite fuel amount, i.e. the source recurses unboundedly
instead of failing fast with a `ReferenceCycle` condition. -/
theorem reference_cycle_exhausts_all_fuel :
    ∀ fuel, recursive_resolve_schema fuel cycle_registry "A"
      (SchemaType.reference RefTo.schemas "A") underscore [] = Res.error RErr.fuel := by
  intro fuel
  induction fuel with
  | zero => rfl
  | succ n ih =>
    have hcpn : camelized_python_name_r "A" = Res.ok "A" := by decide
    have ih2 : recursive_resolve_schema n [("A", SchemaType.reference RefTo.schemas "A")] "A"
        (SchemaType.reference RefTo.schemas "A") underscore [] = Res.error RErr.fuel := ih
    simp [recursive_resolve_schema, _process_reference, hcpn, Res.bind_ok,
      cycle_registry, List.lookup, ih2, Res.bind_error]

/-! ## Claim C10 -/

/-- C10: resolving a schema reference with the empty local registry — as
every operation-level call site does (request bodies, response bodies and
parameter schemas all pass `registry={}`) — fails fast with the `KeyError`
of `registry[reference_key]` whenever the referenced name is absent from
the already-resolved common-types map; the raw components section is never
consulted. -/
theorem operation_reference_absent_from_common_types_fails
    (n : Nat) (common_types : ResolvedTypesMap) (name key sug : String)
    (norm : AttrNormalizer)
    (hk : camelized_python_name name = some key)
    (habsent : common_types.lookup key = none) :
    recursive_resolve_schema (n + 1) [] sug (SchemaType.reference RefTo.schemas name)
      norm common_types = Res.error (RErr.keyError key) := by
  have hcpn : camelized_python_name_r name = Res.ok key := by
    simp [camelized_python_name_r, hk]
  simp [recursive_resolve_schema, _process_reference, hcpn, Res.bind_ok, habsent, List.lookup]

/-- C10 (witness): a request-body reference to `Foo` with no common types
resolved yields the `KeyError`. -/
theorem operation_reference_absent_witness :
    camelized_python_name "Foo" = some "Foo" ∧
    ([] : ResolvedTypesMap).lookup "Foo" = none ∧
    recursive_resolve_schema 3 [] "Request" (SchemaType.reference RefTo.schemas "Foo")
      underscore [] = Res.error (RErr.keyError "Foo") :=
  ⟨by decide, rfl,
    operation_reference_absent_from_common_types_fails 2 [] "Foo" "Foo" "Request" underscore
      (by decide) rfl⟩

/-! ## Claim C2 -/

/-- C2 (amended): a reference whose target is already registered in the
common-types map resolves to that entry's name — the same name on every
re-resolution, independent of fuel, the suggested name and the registry —
and appends no `TypeDefinition` at all. (The counterexample shows the other
half of the original claim fails: before the target is registered, each
occurrence re-resolves it and appends a fresh copy.) -/
theorem registered_reference_resolves_same_name_no_append
    (n : Nat) (registry : Registry) (common_types : ResolvedTypesMap)
    (name key an sug : String) (norm : AttrNormalizer) (tc : TypeContext)
    (hk : camelized_python_name name = some key)
    (hhit : common_types.lookup key = some tc)
    (han : camelized_python_name tc.name = some an) :
    recursive_resolve_schema (n + 1) registry sug (SchemaType.reference RefTo.schemas name)
      norm common_types
      = Res.ok { actual_type_name := an, default_value := none, final_types := [] } := by
  have hcpn : camelized_python_name_r name = Res.ok key := by
    simp [camelized_python_name_r, hk]
  have hcan : camelized_python_name_r tc.name = Res.ok an := by
    simp [camelized_python_name_r, han]
  simp [recursive_resolve_schema, _process_reference, hcpn, hcan, Res.bind_ok, hhit]

/-- A registered common type named `B`. -/
def c2_tc_b : TypeContext := { name := "B", attrs := [] }

/-- C2 (witness): with `B` registered, a `$ref` to `B` resolves to the name
`B` and appends nothing, at two different fuel amounts and suggested
names. -/
theorem registered_reference_reuse_witness :
    camelized_python_name "B" = some "B" ∧
    ([("B", c2_tc_b)] : ResolvedTypesMap).lookup "B" = some c2_tc_b ∧
    recursive_resolve_schema 1 [] "X" (SchemaType.reference RefTo.schemas "B")
      underscore [("B", c2_tc_b)]
      = Res.ok { actual_type_name := "B", default_value := none, final_types := [] } ∧
    recursive_resolve_schema 7 [] "Y" (SchemaType.reference RefTo.schemas "B")
      underscore [("B", c2_tc_b)]
      = Res.ok { actual_type_name := "B", default_value := none, final_types := [] } :=
  ⟨by decide, rfl,
    registered_reference_resolves_same_name_no_append 0 [] [("B", c2_tc_b)] "B" "B" "B" "X"
      underscore c2_tc_b (by decide) rfl (by decide),
    registered_reference_resolves_same_name_no_append 6 [] [("B", c2_tc_b)] "B" "B" "B" "Y"
      underscore c2_tc_b (by decide) rfl (by decide)⟩

/-- `B`: an object schema with no properties. -/
def dup_obj_b : SchemaType := SchemaType.objectValue [] [] ""

/-- `A`: an object schema with two properties, both `$ref`erencing `B`. -/
def dup_obj_a : SchemaType := SchemaType.objectValue
  [("p", SchemaType.reference RefTo.schemas "B"), ("q", SchemaType.reference RefTo.schemas "B")] [] ""

/-- C2 (counterexample): in a single `resolve_schemas` pass over
`{A: {p: $ref B, q: $ref B}, B: {}}` (declared in that order), the
reference to `B` is resolved three times before `B` is registered, and the
registry receives three `TypeDefinition`s named `B` — a second resolution
of the same reference does append a duplicate, refuting the at-most-one
append. -/
theorem unregistered_reference_duplicate_append_counterexample :
    Res.map (fun l => l.map TypeContext.name)
      (resolve_schemas 10 [("A", dup_obj_a), ("B", dup_obj_b)] []) = Res.ok ["B", "B", "A", "B"] ∧
    ¬ (["B", "B", "A", "B"].count "B" ≤ 1) := by
  constructor
  · decide
  · decide

/-! ## Claim C3 -/

/-- Length invariant of the property loop of `_process_object`: one
attribute is appended per declared property. -/
theorem _process_object_loop_length (recurse : ResolverFn) (norm : AttrNormalizer)
    (ct : ResolvedTypesMap) (reg : Registry) (req : List String) (sug : String) :
    ∀ (props : List (String × SchemaType)) (ft0 : List TypeContext) (attrs0 : List TypeAttr)
      (ft : List TypeContext) (attrs : List TypeAttr),
      _process_object_loop recurse norm ct reg req sug ft0 attrs0 props = Res.ok (ft, attrs) →
      attrs.length = attrs0.length + props.length
  | [], ft0, attrs0, ft, attrs, h => by
    simp [_process_object_loop] at h
    simp [← h.2]
  | (an, asch) :: rest, ft0, attrs0, ft, attrs, h => by
    simp only [_process_object_loop] at h
    cases hc : camelized_python_name_r (sug ++ "_" ++ an) with
    | error e => rw [hc, Res.bind_error] at h; exact absurd h (by simp)
    | ok sname =>
      rw [hc, Res.bind_ok] at h
      cases hr : recurse reg sname asch norm ct with
      | error e => rw [hr, Res.bind_error] at h; exact absurd h (by simp)
      | ok parsed =>
        rw [hr, Res.bind_ok] at h
        have := _process_object_loop_length recurse norm ct reg req sug rest _ _ ft attrs h
        simp at this
        simp [this]
        omega

/-- C3 (amended): whenever the resolver succeeds on an object schema, the
object's own `TypeDefinition` is the last element of the returned list —
every definition discovered while resolving its properties precedes it —
and it carries exactly one attribute per declared property. (The
counterexample shows the "appended exactly once" half of the original
claim fails: a schema reached through a not-yet-registered reference
contributes one copy per occurrence.) -/
theorem object_definition_appended_after_children (fuel : Nat) (reg : Registry)
    (props : List (String × SchemaType)) (req : List String) (desc : String)
    (sug : String) (norm : AttrNormalizer) (ct : ResolvedTypesMap) (p : Parsed)
    (h : recursive_resolve_schema fuel reg sug (SchemaType.objectValue props req desc) norm ct
      = Res.ok p) :
    ∃ front ctx, p.final_types = front ++ [ctx] ∧ ctx.name = p.actual_type_name ∧
      ctx.is_enum = false ∧ ctx.attrs.length = props.length ∧ p.default_value = none := by
  cases fuel with
  | zero => exact absurd h (by simp [recursive_resolve_schema])
  | succ n =>
    simp only [recursive_resolve_schema, _process_object] at h
    cases hl : _process_object_loop (recursive_resolve_schema n) norm ct reg req sug [] [] props with
    | error e => rw [hl, Res.bind_error] at h; exact absurd h (by simp)
    | ok pr =>
      obtain ⟨ft, attrs⟩ := pr
      rw [hl, Res.bind_ok] at h
      cases hc : camelized_python_name_r sug with
      | error e =>
        rw [hc, Res.bind_error] at h
        exact absurd h (by simp)
      | ok tname =>
        rw [hc, Res.bind_ok] at h
        injection h with h2
        subst h2
        have hlen := _process_object_loop_length (recursive_resolve_schema n) norm ct reg req sug
          props [] [] ft attrs hl
        simp at hlen
        exact ⟨ft, { name := tname, docstring := "", attrs := attrs }, rfl, rfl, rfl, hlen, rfl⟩

/-- The single property list of the C3 witness object. -/
def c3_props : List (String × SchemaType) := [("x", SchemaType.integerValue none)]

/-- The resolver output on the C3 witness object. -/
def c3_parsed : Parsed :=
  { actual_type_name := "Foo", default_value := none
  , final_types :=
      [{ name := "Foo", docstring := ""
       , attrs := [{ name := "x", datatype := "int", is_required := false, default := none }] }] }

/-- C3 (witness): the dependency-order theorem applied to a concrete
single-property object schema. -/
theorem object_definition_appended_witness :
    ∃ front ctx, c3_parsed.final_types = front ++ [ctx] ∧
      ctx.name = c3_parsed.actual_type_name ∧ ctx.is_enum = false ∧
      ctx.attrs.length = c3_props.length ∧ c3_parsed.default_value = none :=
  object_definition_appended_after_children 2 [] c3_props [] "" "Foo" underscore [] c3_parsed
    (by decide)

/-- C3 (counterexample): resolving the object schema
`A = {p: $ref B, q: $ref B}` against a registry also declaring `B = {}`
returns the definition list `[B, B, A]`: dependencies do precede the
dependent `A`, but `B`'s definition is contributed twice, refuting the
"appended exactly once" part of the claim. -/
theorem object_definition_duplicate_counterexample :
    Res.map (fun p => p.final_types.map TypeContext.name)
      (recursive_resolve_schema 10 [("A", dup_obj_a), ("B", dup_obj_b)] "A" dup_obj_a underscore [])
      = Res.ok ["B", "B", "A"] ∧
    ["B", "B", "A"].count "B" = 2 := by
  constructor
  · decide
  · decide

/-! ## Claim C4 -/

/-- C4 (amended): resolving a string schema with a non-empty enum list
produces exactly one enum `TypeDefinition` whose members are, in order, one
per literal, named by upper-casing the underscore-normalized literal —
with the empty-string literal mapped to the reserved sentinel `EMPTY` —
so the member identifiers are pairwise distinct exactly when those
normalized forms are pairwise distinct (distinctness of the raw literals
alone does not suffice, as the counterexample shows). -/
theorem enum_members_one_per_literal (fuel : Nat) (reg : Registry) (enum : List String)
    (dflt : Option String) (sug : String) (norm : AttrNormalizer) (ct : ResolvedTypesMap)
    (p : Parsed) (henum : enum ≠ [])
    (h : recursive_resolve_schema fuel reg sug (SchemaType.stringValue enum dflt) norm ct
      = Res.ok p) :
    ∃ ctx, p.final_types = [ctx] ∧ ctx.is_enum = true ∧
      ctx.attrs.map TypeAttr.name = enum.map enum_member_name ∧
      ctx.attrs.length = enum.length ∧
      ((enum.map enum_member_name).Nodup → (ctx.attrs.map TypeAttr.name).Nodup) ∧
      enum_member_name "" = EMPTY_NAME := by
  cases fuel with
  | zero => exact absurd h (by simp [recursive_resolve_schema])
  | succ n =>
    simp only [recursive_resolve_schema, _process_string_or_enum, if_pos henum] at h
    cases hc : camelized_python_name_r sug with
    | error e => rw [hc, Res.bind_error] at h; exact absurd h (by simp)
    | ok tname =>
      rw [hc, Res.bind_ok] at h
      injection h with h2
      subst h2
      refine ⟨_, rfl, rfl, ?_, ?_, ?_, rfl⟩
      · simp
      · simp
      · intro hnd
        simpa using hnd

/-- C4 (witness): the amended theorem at the enum `["on", "off", ""]` —
three members named `ON`, `OFF` and the sentinel `EMPTY`. -/
theorem enum_members_witness :
    ∃ ctx,
      ({ actual_type_name := "Switch", default_value := none
       , final_types :=
           [{ name := "Switch", docstring := ""
            , attrs :=
                [{ name := "ON", datatype := "str", is_required := true, default := some "\x27on\x27" }
                ,{ name := "OFF", datatype := "str", is_required := true, default := some "\x27off\x27" }
                ,{ name := "EMPTY", datatype := "str", is_required := true, default := some "\x27\x27" }]
            , is_enum := true }] } : Parsed).final_types = [ctx] ∧
      ctx.is_enum = true ∧
      ctx.attrs.map TypeAttr.name = ["on", "off", ""].map enum_member_name ∧
      ctx.attrs.length = (["on", "off", ""] : List String).length ∧
      (((["on", "off", ""] : List String).map enum_member_name).Nodup →
        (ctx.attrs.map TypeAttr.name).Nodup) ∧
      enum_member_name "" = EMPTY_NAME :=
  enum_members_one_per_literal 1 [] ["on", "off", ""] none "Switch" underscore [] _
    (by decide) (by decide)

/-- C4 (counterexample): the enum `["a", "A"]` has two pairwise-distinct
literals, yet both members receive the identifier `A` — the resolver
produces N members but not N pairwise-distinct identifiers. -/
theorem enum_identifier_collision_counterexample :
    ("a" : String) ≠ "A" ∧
    Res.map (fun p => p.final_types.map (fun t => t.attrs.map TypeAttr.name))
      (recursive_resolve_schema 2 [] "Color" (SchemaType.stringValue ["a", "A"] none) underscore [])
      = Res.ok [["A", "A"]] ∧
    ¬ (["A", "A"] : List String).Nodup := by
  refine ⟨by decide, by decide, by decide⟩

/-! ## Claim C5: lemmas on the character structure of `underscore` outputs -/



theorem char_toNat_ofNat_valid (n : Nat) (h : n < 55296) : (Char.ofNat n).toNat = n := by
  have hv : n.isValidChar := Or.inl h
  unfold Char.ofNat
  rw [dif_pos hv]
  rfl

theorem pyLowerChar_not_upper (c : Char) : isAsciiUpper (pyLowerChar c) = false := by
  unfold pyLowerChar
  by_cases h : isAsciiUpper c
  · rw [if_pos h]
    have hb : 65 ≤ c.toNat ∧ c.toNat ≤ 90 := by
      constructor <;> simp [isAsciiUpper] at h <;> omega
    have ht := char_toNat_ofNat_valid (c.toNat + 32) (by omega)
    simp [isAsciiUpper, ht]
    omega
  · rw [if_neg h]
    simpa using h

theorem pyLowerChar_eq_self (c : Char) (h : isAsciiUpper c = false) : pyLowerChar c = c := by
  unfold pyLowerChar
  rw [if_neg (by simp [h])]

theorem mem_underscorePass1 : ∀ (prev : Option Char) (l : List Char) (c : Char),
    c ∈ underscorePass1 prev l → c = '_' ∨ c ∈ l
  | _, [], c, h => by simp [underscorePass1] at h
  | prev, a :: rest, c, h => by
    simp only [underscorePass1] at h
    split at h
    · rcases List.mem_cons.mp h with h | h
      · left; exact h
      · rcases List.mem_cons.mp h with h | h
        · right; simp [h]
        · rcases mem_underscorePass1 (some a) rest c h with h2 | h2
          · left; exact h2
          · right; simp [h2]
    · rcases List.mem_cons.mp h with h | h
      · right; simp [h]
      · rcases mem_underscorePass1 (some a) rest c h with h2 | h2
        · left; exact h2
        · right; simp [h2]


theorem mem_underscorePass2 : ∀ (l : List Char) (c : Char),
    c ∈ underscorePass2 l → c = '_' ∨ c ∈ l
  | [], c, h => by simp [underscorePass2] at h
  | [a], c, h => by
    simp only [underscorePass2] at h
    right
    exact h
  | c1 :: c2 :: rest, c, h => by
    simp only [underscorePass2] at h
    split at h
    · rcases List.mem_cons.mp h with h | h
      · right; simp [h]
      · rcases List.mem_cons.mp h with h | h
        · left; exact h
        · rcases mem_underscorePass2 (c2 :: rest) c h with h2 | h2
          · left; exact h2
          · right
            rcases List.mem_cons.mp h2 with h3 | h3
            · simp [h3]
            · simp [h3]
    · rcases List.mem_cons.mp h with h | h
      · right; simp [h]
      · rcases mem_underscorePass2 (c2 :: rest) c h with h2 | h2
        · left; exact h2
        · right
          rcases List.mem_cons.mp h2 with h3 | h3
          · simp [h3]
          · simp [h3]

theorem underscorePass1_id : ∀ (prev : Option Char) (l : List Char),
    (∀ c ∈ l, isAsciiUpper c = false) → underscorePass1 prev l = l
  | _, [], _ => by simp [underscorePass1]
  | prev, a :: rest, h => by
    have ha : isAsciiUpper a = false := h a (by simp)
    have hrest : ∀ c ∈ rest, isAsciiUpper c = false := fun c hc => h c (by simp [hc])
    have hrec := underscorePass1_id (some a) rest hrest
    cases prev with
    | none =>
      show a :: underscorePass1 (some a) rest = a :: rest
      rw [hrec]
    | some p =>
      cases rest with
      | nil => rfl
      | cons b bs =>
        show (if (isAsciiUpper p && isAsciiUpper a && isAsciiLower b) = true
              then '_' :: a :: underscorePass1 (some a) (b :: bs)
              else a :: underscorePass1 (some a) (b :: bs)) = a :: b :: bs
        rw [if_neg (by simp [ha])]
        rw [hrec]

theorem underscorePass2_id : ∀ (l : List Char),
    (∀ c ∈ l, isAsciiUpper c = false) → underscorePass2 l = l
  | [], _ => by simp [underscorePass2]
  | [a], _ => by simp [underscorePass2]
  | c1 :: c2 :: rest, h => by
    have h2 : isAsciiUpper c2 = false := h c2 (by simp)
    have hrest : ∀ c ∈ c2 :: rest, isAsciiUpper c = false := fun c hc => h c (by
      rcases List.mem_cons.mp hc with h3 | h3
      · simp [h3]
      · simp [h3])
    have hrec := underscorePass2_id (c2 :: rest) hrest
    show (if ((isAsciiLower c1 || isAsciiDigit c1) && isAsciiUpper c2) = true
          then c1 :: '_' :: underscorePass2 (c2 :: rest)
          else c1 :: underscorePass2 (c2 :: rest)) = c1 :: c2 :: rest
    rw [if_neg (by simp [h2])]
    rw [hrec]


theorem pyLowerChar_toNat_upper (d : Char) (hu : isAsciiUpper d = true) :
    (pyLowerChar d).toNat = d.toNat + 32 := by
  unfold pyLowerChar
  rw [if_pos hu]
  have hb : 65 ≤ d.toNat ∧ d.toNat ≤ 90 := by
    simp [isAsciiUpper] at hu
    omega
  exact char_toNat_ofNat_valid _ (by omega)

theorem char_ne_of_toNat_ne {a b : Char} (h : a.toNat ≠ b.toNat) : a ≠ b :=
  fun he => h (he ▸ rfl)

theorem clean_image (e : Char) (he : removableChars.contains e = false) :
    isAsciiUpper (pyLowerChar (dashToUnderscore e)) = false ∧
    pyLowerChar (dashToUnderscore e) ≠ '-' ∧
    removableChars.contains (pyLowerChar (dashToUnderscore e)) = false := by
  by_cases hdash : e = '-'
  · subst hdash
    decide
  · have hde : dashToUnderscore e = e := by simp [dashToUnderscore, hdash]
    rw [hde]
    by_cases hu : isAsciiUpper e
    · have hu2 : isAsciiUpper e = true := by simpa using hu
      have ht : (pyLowerChar e).toNat = e.toNat + 32 := pyLowerChar_toNat_upper e hu2
      have hb : 65 ≤ e.toNat ∧ e.toNat ≤ 90 := by
        simp [isAsciiUpper] at hu2
        omega
      refine ⟨pyLowerChar_not_upper e, ?_, ?_⟩
      · apply char_ne_of_toNat_ne
        rw [ht]
        show e.toNat + 32 ≠ 45
        omega
      · have h1 : pyLowerChar e ≠ '\x7b' := char_ne_of_toNat_ne (by rw [ht]; show e.toNat + 32 ≠ 123; omega)
        have h2 : pyLowerChar e ≠ '\x7d' := char_ne_of_toNat_ne (by rw [ht]; show e.toNat + 32 ≠ 125; omega)
        have h3 : pyLowerChar e ≠ '.' := char_ne_of_toNat_ne (by rw [ht]; show e.toNat + 32 ≠ 46; omega)
        have h4 : pyLowerChar e ≠ ',' := char_ne_of_toNat_ne (by rw [ht]; show e.toNat + 32 ≠ 44; omega)
        simp [removableChars, h1, h2, h3, h4]
    · have hu2 : isAsciiUpper e = false := by simpa using hu
      rw [pyLowerChar_eq_self e hu2]
      exact ⟨hu2, hdash, he⟩

theorem underscore_chars (s : String)
    (h : ∀ c ∈ s.toList, removableChars.contains c = false) :
    ∀ c ∈ (underscore s).toList, isAsciiUpper c = false ∧ c ≠ '-' ∧
      removableChars.contains c = false := by
  intro c hc
  have hc2 : c ∈ ((underscorePass2 (underscorePass1 none s.toList)).map dashToUnderscore).map pyLowerChar := hc
  rcases List.mem_map.mp hc2 with ⟨d, hd, rfl⟩
  rcases List.mem_map.mp hd with ⟨e, he, rfl⟩
  rcases mem_underscorePass2 _ e he with h_ | he2
  · subst h_
    decide
  · rcases mem_underscorePass1 _ _ e he2 with h_ | he3
    · subst h_
      decide
    · exact clean_image e (h e he3)

theorem map_eq_self_of {α : Type} (f : α → α) :
    ∀ (l : List α), (∀ x ∈ l, f x = x) → l.map f = l
  | [], _ => rfl
  | a :: rest, h => by
    have ha : f a = a := h a (by simp)
    have hrest := map_eq_self_of f rest (fun x hx => h x (by simp [hx]))
    simp [ha, hrest]

theorem underscore_id (s : String)
    (h : ∀ c ∈ s.toList, isAsciiUpper c = false ∧ c ≠ '-') : underscore s = s := by
  have h1 : underscorePass1 none s.toList = s.toList :=
    underscorePass1_id none s.toList (fun c hc => (h c hc).1)
  have h2 : underscorePass2 s.toList = s.toList :=
    underscorePass2_id s.toList (fun c hc => (h c hc).1)
  have h3 : s.toList.map dashToUnderscore = s.toList :=
    map_eq_self_of dashToUnderscore s.toList (fun c hc => by
      simp [dashToUnderscore, (h c hc).2])
  have h4 : s.toList.map pyLowerChar = s.toList :=
    map_eq_self_of pyLowerChar s.toList (fun c hc => pyLowerChar_eq_self c (h c hc).1)
  unfold underscore
  rw [h1, h2, h3, h4]
  rfl

theorem placeholder_not_contains (c : Char) (h : removableChars.contains c = false) :
    placeholderChars.contains c = false := by
  simp [removableChars] at h
  simp [placeholderChars, h.1, h.2.1]


theorem pythonize_fixpoint_of_clean (seg : String) (c : Char) (cs : List Char)
    (hl : seg.toList = c :: cs)
    (hclean : ∀ x ∈ seg.toList, isAsciiUpper x = false ∧ x ≠ '-' ∧
      removableChars.contains x = false)
    (hd : isAsciiDigit c = false) :
    pythonize_path_segment seg
      = some { original := seg, segment := seg, placeholder := none } := by
  have hph : (seg.toList.any fun x => placeholderChars.contains x) = false :=
    List.any_eq_false.mpr (fun x hx => by
      simpa using placeholder_not_contains x (hclean x hx).2.2)
  have hflt : (seg.toList.filter fun x => !(removableChars.contains x)) = seg.toList :=
    List.filter_eq_self.mpr (fun x hx => by simpa using (hclean x hx).2.2)
  have hund : underscore (String.mk seg.toList) = seg :=
    underscore_id seg (fun x hx => ⟨(hclean x hx).1, (hclean x hx).2.1⟩)
  simp only [pythonize_path_segment]
  rw [hflt, hund, hph]
  rw [if_neg (by decide : ¬ (false = true))]
  rw [hl]
  simp [hd]


/-- C5: the path-segment normalizer is idempotent — whenever
`pythonize_path_segment` succeeds on a segment (placeholder and
digit-leading segments included), re-normalizing the produced segment text
succeeds, is a no-op, and detects no placeholder. -/
theorem pythonize_path_segment_idempotent (s : String) (es : EndpointSegment)
    (h : pythonize_path_segment s = some es) :
    pythonize_path_segment es.segment
      = some { original := es.segment, segment := es.segment, placeholder := none } := by
  have hcleanU : ∀ x ∈ (underscore (String.mk
      (s.toList.filter fun c => !(removableChars.contains c)))).toList,
      isAsciiUpper x = false ∧ x ≠ '-' ∧ removableChars.contains x = false := by
    apply underscore_chars
    intro c hc
    have h2 := List.mem_filter.mp hc
    simpa using h2.2
  simp only [pythonize_path_segment] at h
  split at h
  · -- placeholder branch
    injection h with h2
    subst h2
    have happ : (("by_" : String) ++ underscore (String.mk
        (s.toList.filter fun c => !(removableChars.contains c)))).toList
        = 'b' :: 'y' :: '_' :: (underscore (String.mk
          (s.toList.filter fun c => !(removableChars.contains c)))).toList := by
      rw [show ((("by_" : String) ++ underscore (String.mk
        (s.toList.filter fun c => !(removableChars.contains c)))).toList
        = ("by_" : String).toList ++ (underscore (String.mk
          (s.toList.filter fun c => !(removableChars.contains c)))).toList)
        from String.data_append _ _]
      rfl
    apply pythonize_fixpoint_of_clean _ 'b' _ happ
    · intro x hx
      rw [happ] at hx
      rcases List.mem_cons.mp hx with h3 | hx
      · subst h3; refine ⟨by decide, by decide, by decide⟩
      rcases List.mem_cons.mp hx with h3 | hx
      · subst h3; refine ⟨by decide, by decide, by decide⟩
      rcases List.mem_cons.mp hx with h3 | hx
      · subst h3; refine ⟨by decide, by decide, by decide⟩
      · exact hcleanU x hx
    · decide
  · -- non-placeholder branch
    cases hl : (underscore (String.mk
        (s.toList.filter fun c => !(removableChars.contains c)))).toList with
    | nil => rw [hl] at h; exact absurd h (by simp)
    | cons c cs =>
      rw [hl] at h
      injection h with h2
      subst h2
      by_cases hdig : isAsciiDigit c = true
      · rw [if_pos hdig]
        have happ : (("v" : String) ++ underscore (String.mk
            (s.toList.filter fun c => !(removableChars.contains c)))).toList
            = 'v' :: (underscore (String.mk
              (s.toList.filter fun c => !(removableChars.contains c)))).toList := by
          rw [show ((("v" : String) ++ underscore (String.mk
            (s.toList.filter fun c => !(removableChars.contains c)))).toList
            = ("v" : String).toList ++ (underscore (String.mk
              (s.toList.filter fun c => !(removableChars.contains c)))).toList)
            from String.data_append _ _]
          rfl
        apply pythonize_fixpoint_of_clean _ 'v' _ happ
        · intro x hx
          rw [happ] at hx
          rcases List.mem_cons.mp hx with h3 | hx
          · subst h3; refine ⟨by decide, by decide, by decide⟩
          · exact hcleanU x hx
        · decide
      · have hdig2 : isAsciiDigit c = false := by simpa using hdig
        rw [if_neg hdig]
        apply pythonize_fixpoint_of_clean _ c cs hl
        · exact hcleanU
        · exact hdig2


/-- C5 (witness): idempotence applied to the placeholder segment
`{petId}` (normalizing `by_pet_id` is a no-op) and to the digit-leading
segment `20` (normalizing `v20` is a no-op). -/
theorem pythonize_path_segment_idempotent_witness :
    pythonize_path_segment "\x7bpetId\x7d"
      = some { original := "\x7bpetId\x7d", segment := "by_pet_id"
             , placeholder := some "\x7bpet_id\x7d" } ∧
    pythonize_path_segment "by_pet_id"
      = some { original := "by_pet_id", segment := "by_pet_id", placeholder := none } ∧
    pythonize_path_segment "v20"
      = some { original := "v20", segment := "v20", placeholder := none } :=
  ⟨by decide,
    pythonize_path_segment_idempotent "\x7bpetId\x7d"
      { original := "\x7bpetId\x7d", segment := "by_pet_id"
      , placeholder := some "\x7bpet_id\x7d" } (by decide),
    pythonize_path_segment_idempotent "20"
      { original := "20", segment := "v20", placeholder := none } (by decide)⟩

/-! ## Claim C6 -/

/-- C6: merging object schemas `A{x, y}` and `B{y, z}` through the `allOf`
pipeline in the order `[A, B]` yields an object schema whose property set
is exactly `{x, y, z}` in that order, whose definition for the shared
property `y` is `B`'s (the right-most member wins the scalar conflict, as
for the description), and whose required frozenset is the union of the
members' sets — mapping-valued fields merged key by key, set-valued fields
unioned, scalars last-writer-wins. -/
theorem allof_merge_attrs_union_rightmost_wins (registry : Registry) (x y z : String)
    (px py pyB pz : SchemaType) (reqA reqB : List String) (dA dB : String)
    (hxy : x ≠ y) (hxz : x ≠ z) (hyz : y ≠ z) :
    product_merge registry
      [SchemaType.objectValue [(x, px), (y, py)] reqA dA,
       SchemaType.objectValue [(y, pyB), (z, pz)] reqB dB]
      = Res.ok (SchemaType.objectValue [(x, px), (y, pyB), (z, pz)]
          (frozensetUnion reqA reqB) dB) := by
  have bxy : (x == y) = false := by simpa using hxy
  have bxz : (x == z) = false := by simpa using hxz
  have byx : (y == x) = false := by simpa using (Ne.symm hxy)
  have byz : (y == z) = false := by simpa using hyz
  have bzx : (z == x) = false := by simpa using (Ne.symm hxz)
  have bzy : (z == y) = false := by simpa using (Ne.symm hyz)
  simp [product_merge, schema_asdict_parts, merge_strategy_merge, pyDictMerge,
    List.lookup, bxy, bxz, byx, byz, bzx, bzy, Res.bind_ok,
    List.mapM, List.mapM.loop, List.foldl, Res.pure_def]

/-- C6 (witness): the merge law at concrete schemas — `A{x: int required,
y: bool}` and `B{y: str required, z: int}` merge to `{x: int, y: str,
z: int}` with required set `{x} ∪ {y}` and `B`'s description. -/
theorem allof_merge_witness :
    product_merge []
      [SchemaType.objectValue
        [("x", SchemaType.integerValue none), ("y", SchemaType.booleanValue none)] ["x"] "A doc",
       SchemaType.objectValue
        [("y", SchemaType.stringValue [] none), ("z", SchemaType.integerValue none)] ["y"] "B doc"]
      = Res.ok (SchemaType.objectValue
          [("x", SchemaType.integerValue none), ("y", SchemaType.stringValue [] none),
           ("z", SchemaType.integerValue none)]
          (frozensetUnion ["x"] ["y"]) "B doc") ∧
    frozensetUnion ["x"] ["y"] = ["x", "y"] :=
  ⟨allof_merge_attrs_union_rightmost_wins [] "x" "y" "z"
      (SchemaType.integerValue none) (SchemaType.booleanValue none)
      (SchemaType.stringValue [] none) (SchemaType.integerValue none)
      ["x"] ["y"] "A doc" "B doc" (by decide) (by decide) (by decide),
   by decide⟩

/-! ## Claim C7 -/

/-- C7 (amended): the request-body selection takes the first *declared*
content entry whose type is JSON-like, wildcard or form-urlencoded — with
no ranking among these three — and falls back to the last declared entry
only when no entry matches. -/
theorem request_content_first_preferred_else_last :
    (∀ (pre : List (ContentType × MediaType)) (p : ContentType × MediaType)
       (post : List (ContentType × MediaType)),
       (∀ q ∈ pre, request_preferred q = false) → request_preferred p = true →
       select_request_content (pre ++ p :: post) = some p) ∧
    (∀ content : List (ContentType × MediaType),
       (∀ q ∈ content, request_preferred q = false) →
       select_request_content content = content.getLast?) := by
  constructor
  · intro pre p post hpre hp
    unfold select_request_content
    rw [List.find?_append]
    rw [List.find?_eq_none.mpr (fun x hx => by simp [hpre x hx])]
    rw [List.find?_cons_of_pos _ hp]
    rfl
  · intro content hc
    unfold select_request_content
    rw [List.find?_eq_none.mpr (fun x hx => by simp [hc x hx])]

/-- C7 (witness): a JSON entry after an unpreferred binary-stream entry is
selected; a content map with no preferred entry falls back to its last
declared entry. -/
theorem request_content_selection_witness :
    select_request_content
      [({ format := ContentTypeFormat.binary_stream }, { schema := none }),
       ({ format := ContentTypeFormat.json }, { schema := none })]
      = some ({ format := ContentTypeFormat.json }, ({ schema := none } : MediaType)) ∧
    select_request_content
      [({ format := ContentTypeFormat.text }, { schema := none }),
       ({ format := ContentTypeFormat.binary }, { schema := none })]
      = some ({ format := ContentTypeFormat.binary }, ({ schema := none } : MediaType)) := by
  constructor
  · exact request_content_first_preferred_else_last.1
      [({ format := ContentTypeFormat.binary_stream }, { schema := none })]
      ({ format := ContentTypeFormat.json }, { schema := none }) []
      (fun q hq => by simp at hq; rw [hq]; rfl) rfl
  · have := request_content_first_preferred_else_last.2
      [({ format := ContentTypeFormat.text }, { schema := none }),
       ({ format := ContentTypeFormat.binary }, { schema := none })]
      (fun q hq => by
        rcases List.mem_cons.mp hq with h | h
        · rw [h]; rfl
        · simp at h; rw [h]; rfl)
    rw [this]
    rfl

/-- A content map declaring form-urlencoded before JSON. -/
def c7_content : List (ContentType × MediaType) :=
  [({ format := ContentTypeFormat.form_urlencoded }, { schema := none }),
   ({ format := ContentTypeFormat.json }, { schema := none })]

/-- C7 (counterexample): with content declared as `[form-urlencoded, json]`,
the code selects the form-urlencoded entry — there is no JSON-first
preference ranking among the accepted content types, refuting the claimed
order JSON > wildcard > form-urlencoded. -/
theorem request_content_ranking_counterexample :
    Option.map (fun p => p.1.format) (select_request_content c7_content)
      = some ContentTypeFormat.form_urlencoded ∧
    ¬ Option.map (fun p => p.1.format) (select_request_content c7_content)
      = some ContentTypeFormat.json := by
  constructor
  · decide
  · decide

/-! ## Claim C8 -/

/-- C8 (amended): for a response processed with the incoming flag `False`
(as at both call sites), the resulting streaming flag is `true` exactly
when the preference scan selected an entry and that entry's format is
EVENT_STREAM; an entry chosen by the last-declared-entry fallback — in
particular a BINARY_STREAM entry, which the scan never matches — leaves
the flag `false`. -/
theorem response_stream_flag_iff_event_stream_break (fuel : Nat) (ct : ResolvedTypesMap)
    (req : String) (resp : Response) (b : Bool) (ts : List TypeContext)
    (h : _process_response_type fuel ct req resp false = Res.ok (b, ts)) :
    b = true ↔ ∃ p, resp.content.find? response_preferred = some p ∧
      p.1.format = ContentTypeFormat.event_stream := by
  unfold _process_response_type at h
  by_cases hemp : resp.content.isEmpty
  · rw [if_pos hemp] at h
    injection h with h2
    have hb : b = false := (congrArg Prod.fst h2).symm
    subst hb
    have hnil : resp.content = [] := List.isEmpty_iff.mp hemp
    rw [hnil]
    simp
  · rw [if_neg hemp] at h
    cases hf : resp.content.find? response_preferred with
    | some p =>
      rw [hf] at h
      simp only [Res.bind_ok] at h
      have hpref : response_preferred p = true := List.find?_some hf
      cases hs : p.2.schema with
      | none =>
        rw [hs] at h
        injection h with h2
        have hb : b = ([ContentTypeFormat.event_stream,
            ContentTypeFormat.binary_stream].contains p.1.format) :=
          (congrArg Prod.fst h2).symm
        subst hb
        rcases p with ⟨⟨fmt⟩, m⟩
        cases fmt <;> simp_all [response_preferred]
      | some rs =>
        rw [hs] at h
        cases hr : recursive_resolve_schema fuel [] req rs underscore ct with
        | error e =>
          simp only [hr, Res.bind_error] at h
          exact absurd h (by simp)
        | ok parsed =>
          simp only [hr, Res.bind_ok] at h
          injection h with h2
          have hb : b = ([ContentTypeFormat.event_stream,
              ContentTypeFormat.binary_stream].contains p.1.format) :=
            (congrArg Prod.fst h2).symm
          subst hb
          rcases p with ⟨⟨fmt⟩, m⟩
          cases fmt <;> simp_all [response_preferred]
    | none =>
      rw [hf] at h
      have hbf : b = false := by
        cases hg : resp.content.getLast? with
        | none =>
          rw [hg] at h
          simp only [Res.bind_error] at h
          exact absurd h (by simp)
        | some lastp =>
          rw [hg] at h
          simp only [Res.bind_ok] at h
          cases hs : lastp.2.schema with
          | none =>
            rw [hs] at h
            injection h with h2
            exact (congrArg Prod.fst h2).symm
          | some rs =>
            rw [hs] at h
            cases hr : recursive_resolve_schema fuel [] req rs underscore ct with
            | error e =>
              simp only [hr, Res.bind_error] at h
              exact absurd h (by simp)
            | ok parsed =>
              simp only [hr, Res.bind_ok] at h
              injection h with h2
              exact (congrArg Prod.fst h2).symm
      subst hbf
      simp

/-- A response whose single content entry is an event stream. -/
def c8_resp_event : Response :=
  { content := [({ format := ContentTypeFormat.event_stream }, { schema := none })] }

/-- C8 (witness): the flag theorem applied to a response with one
event-stream entry (flag computes to `true` via the scan). -/
theorem response_stream_flag_witness :
    (true = true ↔ ∃ p, c8_resp_event.content.find? response_preferred = some p ∧
      p.1.format = ContentTypeFormat.event_stream) :=
  response_stream_flag_iff_event_stream_break 1 [] "Response" c8_resp_event true
    [{ name := "Any", docstring := "", attrs := [], is_enum := false
     , common_reference_as := some "Response", overrides := [] }] (by decide)

/-- A response whose single content entry is a binary stream. -/
def c8_resp_binary : Response :=
  { content := [({ format := ContentTypeFormat.binary_stream }, { schema := none })] }

/-- C8 (counterexample): a response whose only entry is BINARY_STREAM: the
scan matches nothing, the fallback chooses that binary-stream entry, yet
the streaming flag stays `false` — refuting "true exactly when the chosen
entry is a server-push or binary-stream format, regardless of how it was
chosen". -/
theorem response_stream_flag_fallback_counterexample :
    (c8_resp_binary.content.find? response_preferred).isNone = true ∧
    Option.map (fun p => p.1.format) c8_resp_binary.content.getLast?
      = some ContentTypeFormat.binary_stream ∧
    Res.map Prod.fst (_process_response_type 1 [] "Response" c8_resp_binary false)
      = Res.ok false := by
  refine ⟨by decide, by decide, by decide⟩

end OpenapiClientGen

